import Mathlib

/-!
Verification of the scheduling/dispatch/retry engine of `src/src/server.ts`
(class `PostScheduler`): a shallow embedding of the SQLite-backed post store,
the event-listener effects, the publish/retry flow, deletion, cleanup and
analytics, with theorems settling the specification claims.

Modelling conventions:
* The `posts` table is a `List Post` in insertion order; the `post_analytics`
  table is a `List EventRec` in insertion order (AUTOINCREMENT ids give
  insertion order as creation order).
* Timestamps (ISO-8601 strings in the database, compared lexicographically,
  which agrees with chronological order for a fixed format) are modelled as
  `Int` instants in milliseconds.
* An optional SQL parameter that may be "absent" (JavaScript `undefined`:
  field untouched) or "null" (field set to NULL) is an `Option (Option _)`:
  `none` = untouched, `some none` = set to NULL, `some v` = set to `v`.
* `EventEmitter.emit` runs listeners synchronously; the effect of emitting a
  signal is inlined as the corresponding listener's store updates
  (`setupEventListeners` in the source).
* A `setTimeout` re-attempt cannot be embedded as real time; the publish flow
  returns a `RetryAction` datum recording whether (and with which delay) a
  re-attempt was scheduled.
-/

/-- `status` column of `posts`: `'pending' | 'posted' | 'failed'`. -/
inductive Status where
  | pending
  | posted
  | failed
deriving DecidableEq, Repr

/-- `platform` column of `posts`: `'twitter' | 'linkedin' | 'instagram'`. -/
inductive Platform where
  | twitter
  | linkedin
  | instagram
deriving DecidableEq, Repr

/-- One row of the `posts` table (schema in `createTables`). -/
structure Post where
  id : String
  content : String
  scheduled_for : Int
  status : Status
  created_at : Int
  platform : Platform
  tags : Option (List String)
  published_at : Option Int
  error_message : Option String
  retry_count : Nat
deriving DecidableEq, Repr

/-- `event_type` column of `post_analytics`: the four lifecycle signals
logged by the listeners. -/
inductive EventType where
  | scheduled
  | published
  | failed
  | retry
deriving DecidableEq, Repr

/-- The `event_data` JSON payload of an analytics row: `scheduledFor` for
`scheduled`, `attempt` for `retry`, `error` for `failed`; `published` logs
no payload. -/
inductive EventPayload where
  | schedFor (t : Int)
  | attemptNo (n : Nat)
  | errorText (s : String)
deriving DecidableEq, Repr

/-- One row of the `post_analytics` table. -/
structure EventRec where
  post_id : String
  etype : EventType
  payload : Option EventPayload
deriving DecidableEq, Repr

/-- The durable state: the `posts` table and the `post_analytics` table. -/
structure DB where
  posts : List Post
  analytics : List EventRec
deriving DecidableEq, Repr

/-- `logAnalytics`: INSERT INTO post_analytics. -/
def logAnalytics (db : DB) (postId : String) (etype : EventType)
    (payload : Option EventPayload) : DB :=
  { db with analytics := db.analytics ++ [⟨postId, etype, payload⟩] }

/-- `getPostById`: SELECT * FROM posts WHERE id = ? (first matching row). -/
def getPostById (db : DB) (postId : String) : Option Post :=
  db.posts.find? (fun p => p.id = postId)

/-- The per-row effect of `updatePostStatus` on a matching row: set `status`;
set `error_message` / `published_at` only when the argument was not
`undefined`; increment `retry_count` exactly when the new status is
`'failed'`. -/
def applyStatusUpdate (status : Status) (errorMessage : Option (Option String))
    (publishedAt : Option (Option Int)) (p : Post) : Post :=
  { p with
    status := status
    error_message := errorMessage.getD p.error_message
    published_at := publishedAt.getD p.published_at
    retry_count := if status = Status.failed then p.retry_count + 1 else p.retry_count }

/-- `updatePostStatus`: UPDATE posts SET ... WHERE id = ?. -/
def updatePostStatus (db : DB) (postId : String) (status : Status)
    (errorMessage : Option (Option String)) (publishedAt : Option (Option Int)) : DB :=
  { db with posts := db.posts.map (fun p =>
      if p.id = postId then applyStatusUpdate status errorMessage publishedAt p else p) }

/-- `handleFailedPost`: `updatePostStatus(postId, 'failed', errorMessage)`
(the `publishedAt` argument is `undefined`). -/
def handleFailedPost (db : DB) (postId : String) (errorMessage : String) : DB :=
  updatePostStatus db postId Status.failed (some (some errorMessage)) none

/-- The duplicate-primary-key failure `db.run` raises on INSERT (rethrown by
`schedulePost`). -/
inductive StoreError where
  | duplicateId
deriving DecidableEq, Repr

/-- `schedulePost`: INSERT a new row (status `'pending'`, database defaults
`published_at` NULL, `error_message` NULL, `retry_count` 0), then emit
`post:scheduled`, whose listener appends a `scheduled` analytics event;
returns the generated id. The INSERT fails on a duplicate primary key.
`scheduledFor` is optional and defaults to the current time (`new Date()`). -/
def schedulePost (db : DB) (postId content : String) (scheduledFor : Option Int)
    (now : Int) (platform : Platform) (tags : Option (List String)) :
    Except StoreError (DB × String) :=
  if db.posts.any (fun p => p.id = postId) then
    Except.error StoreError.duplicateId
  else
    let sf := scheduledFor.getD now
    let db := { db with posts := db.posts ++
      [{ id := postId, content := content, scheduled_for := sf,
         status := Status.pending, created_at := now, platform := platform,
         tags := tags, published_at := none, error_message := none,
         retry_count := 0 }] }
    Except.ok (logAnalytics db postId EventType.scheduled
      (some (EventPayload.schedFor sf)), postId)

/-- Whether the `try` block of `publishPost` completes: the `twitter` case
awaits the adapter (which may throw); the `linkedin` and `instagram` cases
only `console.log` and never throw. -/
def attemptSucceeds (platform : Platform) (adapterOk : Bool) : Bool :=
  match platform with
  | Platform.twitter => adapterOk
  | Platform.linkedin => true
  | Platform.instagram => true

/-- Outcome datum of one `publishPost` call: either no timer was armed, or
`setTimeout(() => this.publishPost(post), delayMs)` scheduled a re-attempt. -/
inductive RetryAction where
  | done
  | retryAfter (delayMs : Nat)
deriving DecidableEq, Repr

/-- The fixed retry delay: `5 * 60 * 1000` milliseconds. -/
def retryDelayMs : Nat := 5 * 60 * 1000

/-- `publishPost` with the listener effects of the emitted signal inlined.
On success: emit `post:published` — listener runs
`updatePostStatus(id, 'posted', null, now)` and logs a `published` event.
On failure: re-read the row (`getPostById`); if it exists with
`retry_count < 3`, emit `post:retrying` — listener logs a `retry` event with
`attempt = retry_count + 1` — and arm a 5-minute re-attempt timer; otherwise
emit `post:failed` — listener runs `handleFailedPost` and logs a `failed`
event. `post` is the caller's in-memory copy; only its `id`, `platform` and
`content` are consulted. -/
def publishPost (db : DB) (post : Post) (adapterOk : Bool) (now : Int)
    (errMsg : String) : DB × RetryAction :=
  if attemptSucceeds post.platform adapterOk then
    let db := updatePostStatus db post.id Status.posted (some none) (some (some now))
    (logAnalytics db post.id EventType.published none, RetryAction.done)
  else
    match getPostById db post.id with
    | some current =>
      if current.retry_count < 3 then
        (logAnalytics db post.id EventType.retry
          (some (EventPayload.attemptNo (current.retry_count + 1))),
         RetryAction.retryAfter retryDelayMs)
      else
        let db := handleFailedPost db post.id errMsg
        (logAnalytics db post.id EventType.failed
          (some (EventPayload.errorText errMsg)), RetryAction.done)
    | none =>
      let db := handleFailedPost db post.id errMsg
      (logAnalytics db post.id EventType.failed
        (some (EventPayload.errorText errMsg)), RetryAction.done)

/-- The scheduler tick's due-post query:
SELECT * FROM posts WHERE status = 'pending' AND scheduled_for <= ?
AND retry_count < 3 ORDER BY scheduled_for ASC. -/
def listDue (db : DB) (now : Int) : List Post :=
  List.mergeSort
    (db.posts.filter (fun p =>
      p.status = Status.pending ∧ p.scheduled_for ≤ now ∧ p.retry_count < 3))
    (fun a b => a.scheduled_for ≤ b.scheduled_for)

/-- `deleteScheduledPost`: DELETE FROM posts WHERE id = ? AND status =
"pending" (SQLite treats the double-quoted `"pending"` as the string
literal `'pending'`); returns whether `result.changes > 0`. -/
def deleteScheduledPost (db : DB) (postId : String) : DB × Bool :=
  let keep := db.posts.filter (fun p => ¬(p.id = postId ∧ p.status = Status.pending))
  ({ db with posts := keep }, decide (keep.length < db.posts.length))

/-- 30 days in milliseconds (the retention window of `cleanupOldPosts`,
computed there via `setDate(getDate() - 30)`). -/
def thirtyDaysMs : Int := 30 * 24 * 60 * 60 * 1000

/-- `cleanupOldPosts`: DELETE FROM posts WHERE status IN ('posted','failed')
AND created_at < (now - 30 days). Analytics rows are not touched. -/
def cleanupOldPosts (db : DB) (now : Int) : DB :=
  { db with posts := db.posts.filter (fun p =>
      ¬((p.status = Status.posted ∨ p.status = Status.failed) ∧
        p.created_at < now - thirtyDaysMs)) }

/-- The `stats` row of `getAnalytics`: COUNT(*) plus one SUM(CASE ...) per
status over the whole `posts` table. -/
structure Stats where
  total_posts : Nat
  published : Nat
  pending : Nat
  failed : Nat
deriving DecidableEq, Repr

/-- The aggregate query of `getAnalytics` (no WHERE clause: all posts). -/
def aggregateStats (db : DB) : Stats :=
  { total_posts := db.posts.length
    published := (db.posts.filter (fun p => p.status = Status.posted)).length
    pending := (db.posts.filter (fun p => p.status = Status.pending)).length
    failed := (db.posts.filter (fun p => p.status = Status.failed)).length }

/-- One row of the analytics JOIN: an event row joined with its post's
`content`, `platform`, `status`. -/
structure JoinedEvent where
  ev : EventRec
  content : String
  platform : Platform
  status : Status
deriving DecidableEq, Repr

/-- `getAnalytics`: the event query (JOIN posts on `post_id`, optional
WHERE on `post_id`, ORDER BY created_at DESC LIMIT 100) together with the
aggregate stats. -/
def getAnalytics (db : DB) (postId : Option String) : Stats × List JoinedEvent :=
  let joined : List JoinedEvent := db.analytics.filterMap (fun a =>
    match getPostById db a.post_id with
    | some p => some ⟨a, p.content, p.platform, p.status⟩
    | none => none)
  let filtered := match postId with
    | none => joined
    | some pid => joined.filter (fun j => j.ev.post_id = pid)
  (aggregateStats db, (filtered.reverse).take 100)

/-- One engine-driven mutation of the durable state: a scheduling request
(no change if the INSERT fails), one publish attempt (dispatch-tick or
retry-timer driven, with the adapter outcome as environment input), an
explicit deletion, or the daily cleanup. These are the only code paths of
`PostScheduler` that write to the store. -/
inductive EngineOp where
  | schedule (postId content : String) (scheduledFor : Option Int) (now : Int)
      (platform : Platform) (tags : Option (List String))
  | publish (post : Post) (adapterOk : Bool) (now : Int) (errMsg : String)
  | delete (postId : String)
  | cleanup (now : Int)

/-- Apply one engine operation to the store. -/
def applyOp (db : DB) : EngineOp → DB
  | EngineOp.schedule pid c sf now pl tg =>
    match schedulePost db pid c sf now pl tg with
    | Except.ok (db', _) => db'
    | Except.error _ => db
  | EngineOp.publish post ok now err => (publishPost db post ok now err).1
  | EngineOp.delete pid => (deleteScheduledPost db pid).1
  | EngineOp.cleanup now => cleanupOldPosts db now

/-- States reachable from the empty store by engine operations alone. -/
inductive Reachable : DB → Prop where
  | init : Reachable ⟨[], []⟩
  | step {db : DB} (h : Reachable db) (op : EngineOp) : Reachable (applyOp db op)

/-! ### Helper lemmas about the store operations -/

lemma applyStatusUpdate_id (st : Status) (em : Option (Option String))
    (pa : Option (Option Int)) (p : Post) :
    (applyStatusUpdate st em pa p).id = p.id := rfl

lemma applyStatusUpdate_posted (now : Int) (p : Post) :
    applyStatusUpdate Status.posted (some none) (some (some now)) p
      = { p with status := Status.posted, error_message := none,
                 published_at := some now } := by
  simp [applyStatusUpdate]

lemma applyStatusUpdate_failed (err : String) (p : Post) :
    applyStatusUpdate Status.failed (some (some err)) none p
      = { p with status := Status.failed, error_message := some err,
                 retry_count := p.retry_count + 1 } := by
  simp [applyStatusUpdate]

lemma find?_map_update (pid : String) (st : Status) (em : Option (Option String))
    (pa : Option (Option Int)) (l : List Post) :
    (l.map (fun p => if p.id = pid then applyStatusUpdate st em pa p else p)).find?
        (fun p => p.id = pid)
      = (l.find? (fun p => p.id = pid)).map (applyStatusUpdate st em pa) := by
  induction l with
  | nil => rfl
  | cons q l ih =>
    by_cases h : q.id = pid
    · simp [List.find?_cons, h, applyStatusUpdate_id]
    · simp [List.find?_cons, h, ih]

lemma getPostById_updatePostStatus (db : DB) (pid : String) (st : Status)
    (em : Option (Option String)) (pa : Option (Option Int)) :
    getPostById (updatePostStatus db pid st em pa) pid
      = (getPostById db pid).map (applyStatusUpdate st em pa) :=
  find?_map_update pid st em pa db.posts

lemma getPostById_logAnalytics (db : DB) (pid q : String) (t : EventType)
    (pl : Option EventPayload) :
    getPostById (logAnalytics db pid t pl) q = getPostById db q := rfl

lemma map_update_eq_self (pid : String) (st : Status) (em : Option (Option String))
    (pa : Option (Option Int)) (l : List Post) (h : ∀ p ∈ l, ¬(p.id = pid)) :
    l.map (fun p => if p.id = pid then applyStatusUpdate st em pa p else p) = l := by
  induction l with
  | nil => rfl
  | cons q l ih =>
    simp only [List.map_cons]
    rw [if_neg (h q (List.mem_cons_self q l)), ih (fun p hp => h p (List.mem_cons_of_mem q hp))]

lemma updatePostStatus_not_found (db : DB) (pid : String) (st : Status)
    (em : Option (Option String)) (pa : Option (Option Int))
    (h : getPostById db pid = none) :
    updatePostStatus db pid st em pa = db := by
  have h' : ∀ p ∈ db.posts, ¬(p.id = pid) := by
    intro p hp
    have := List.find?_eq_none.mp h p hp
    simpa using this
  unfold updatePostStatus
  rw [map_update_eq_self pid st em pa db.posts h']

/-- Claim C2: on an adapter failure, the catch block re-reads the stored row;
with stored retry count < 3 it appends only a `retry` event carrying
attempt = stored count + 1 (no status change) and arms a 5-minute
re-attempt timer; with stored retry count ≥ 3 it arms no timer, appends a
`failed` event, and the stored row moves to status `failed` with the error
message recorded and the stored retry count incremented exactly once. -/
theorem adapter_failure_branch_spec :
    ∀ (db : DB) (post : Post) (now : Int) (errMsg : String) (current : Post),
    post.platform = Platform.twitter →
    getPostById db post.id = some current →
    ((current.retry_count < 3 →
        publishPost db post false now errMsg
          = ({ db with analytics := db.analytics ++
                [⟨post.id, EventType.retry,
                  some (EventPayload.attemptNo (current.retry_count + 1))⟩] },
             RetryAction.retryAfter (5 * 60 * 1000)))
     ∧ (3 ≤ current.retry_count →
        (publishPost db post false now errMsg).2 = RetryAction.done
        ∧ (publishPost db post false now errMsg).1.analytics
            = db.analytics ++
              [⟨post.id, EventType.failed, some (EventPayload.errorText errMsg)⟩]
        ∧ getPostById (publishPost db post false now errMsg).1 post.id
            = some { current with
                     status := Status.failed
                     error_message := some errMsg
                     retry_count := current.retry_count + 1 })) := by
  intro db post now errMsg current hplat hcur
  have hfail : attemptSucceeds post.platform false = false := by
    rw [hplat]; rfl
  constructor
  · intro hlt
    unfold publishPost
    rw [hfail, hcur]
    simp [hlt, logAnalytics, retryDelayMs]
  · intro hge
    have hnlt : ¬(current.retry_count < 3) := by omega
    have hred : publishPost db post false now errMsg
        = (logAnalytics (handleFailedPost db post.id errMsg) post.id
            EventType.failed (some (EventPayload.errorText errMsg)),
           RetryAction.done) := by
      unfold publishPost
      rw [hfail, hcur]
      simp [hnlt]
    rw [hred]
    refine ⟨rfl, ?_, ?_⟩
    · simp [logAnalytics, handleFailedPost, updatePostStatus]
    · rw [getPostById_logAnalytics]
      unfold handleFailedPost
      rw [getPostById_updatePostStatus, hcur]
      simp [applyStatusUpdate_failed]

/-- Claim C4: for a `linkedin` or `instagram` item the publish attempt is a
no-op success regardless of the adapter: a `published` event is appended, no
retry timer is armed, and the stored row moves to `posted` with the
published time set. -/
theorem unimplemented_channel_noop_success :
    ∀ (db : DB) (post : Post) (adapterOk : Bool) (now : Int) (errMsg : String),
    post.platform = Platform.linkedin ∨ post.platform = Platform.instagram →
    (publishPost db post adapterOk now errMsg).2 = RetryAction.done
    ∧ (publishPost db post adapterOk now errMsg).1.analytics
        = db.analytics ++ [⟨post.id, EventType.published, none⟩]
    ∧ getPostById (publishPost db post adapterOk now errMsg).1 post.id
        = (getPostById db post.id).map (fun p =>
            { p with
              status := Status.posted
              error_message := none
              published_at := some now }) := by
  intro db post adapterOk now errMsg hplat
  have hok : attemptSucceeds post.platform adapterOk = true := by
    rcases hplat with h | h <;> rw [h] <;> rfl
  have hred : publishPost db post adapterOk now errMsg
      = (logAnalytics
          (updatePostStatus db post.id Status.posted (some none) (some (some now)))
          post.id EventType.published none, RetryAction.done) := by
    unfold publishPost
    rw [hok]
    simp
  rw [hred]
  refine ⟨rfl, ?_, ?_⟩
  · simp [logAnalytics, updatePostStatus]
  · rw [getPostById_logAnalytics, getPostById_updatePostStatus]
    cases getPostById db post.id with
    | none => rfl
    | some p => simp [applyStatusUpdate_posted]

/-! ### Branch characterizations of the publish flow -/

lemma publishPost_success_eq (db : DB) (post : Post) (adapterOk : Bool) (now : Int)
    (errMsg : String) (hs : attemptSucceeds post.platform adapterOk = true) :
    publishPost db post adapterOk now errMsg
      = (logAnalytics
          (updatePostStatus db post.id Status.posted (some none) (some (some now)))
          post.id EventType.published none, RetryAction.done) := by
  unfold publishPost
  rw [hs]
  simp

lemma publishPost_retry_eq (db : DB) (post : Post) (adapterOk : Bool) (now : Int)
    (errMsg : String) (current : Post)
    (hs : attemptSucceeds post.platform adapterOk = false)
    (hc : getPostById db post.id = some current)
    (hlt : current.retry_count < 3) :
    publishPost db post adapterOk now errMsg
      = (logAnalytics db post.id EventType.retry
          (some (EventPayload.attemptNo (current.retry_count + 1))),
         RetryAction.retryAfter retryDelayMs) := by
  unfold publishPost
  rw [hs, hc]
  simp [hlt]

lemma publishPost_missing_eq (db : DB) (post : Post) (adapterOk : Bool) (now : Int)
    (errMsg : String)
    (hs : attemptSucceeds post.platform adapterOk = false)
    (hc : getPostById db post.id = none) :
    publishPost db post adapterOk now errMsg
      = (logAnalytics (handleFailedPost db post.id errMsg) post.id
          EventType.failed (some (EventPayload.errorText errMsg)),
         RetryAction.done) := by
  unfold publishPost
  rw [hs, hc]
  simp

/-! ### The engine invariant: retry counts stay 0, published time tracks
`posted`, and `failed` is unreachable -/

/-- The inductive invariant the engine operations maintain: every stored row
keeps its initial retry count 0 (the retry path never increments it, and the
only increment is tied to the `failed` transition, whose guard needs count
≥ 3), its published time is set exactly when its status is `posted`, and its
status never becomes `failed`. -/
def EngineInv (db : DB) : Prop :=
  ∀ p ∈ db.posts,
    p.retry_count = 0
    ∧ (p.published_at ≠ none ↔ p.status = Status.posted)
    ∧ p.status ≠ Status.failed

lemma engineInv_nil : EngineInv ⟨[], []⟩ := by
  intro p hp
  simp only [List.mem_nil_iff] at hp

lemma engineInv_publish (db : DB) (post : Post) (adapterOk : Bool) (now : Int)
    (errMsg : String) (h : EngineInv db) :
    EngineInv (publishPost db post adapterOk now errMsg).1 := by
  cases hs : attemptSucceeds post.platform adapterOk with
  | true =>
    rw [publishPost_success_eq db post adapterOk now errMsg hs]
    intro p hp
    have hp' : p ∈ (updatePostStatus db post.id Status.posted
        (some none) (some (some now))).posts := hp
    simp only [updatePostStatus, List.mem_map] at hp'
    obtain ⟨q, hq, rfl⟩ := hp'
    by_cases hid : q.id = post.id
    · rw [if_pos hid, applyStatusUpdate_posted]
      exact ⟨(h q hq).1, by simp, by simp⟩
    · rw [if_neg hid]
      exact h q hq
  | false =>
    cases hc : getPostById db post.id with
    | none =>
      rw [publishPost_missing_eq db post adapterOk now errMsg hs hc]
      have hun : handleFailedPost db post.id errMsg = db :=
        updatePostStatus_not_found db post.id Status.failed
          (some (some errMsg)) none hc
      intro p hp
      have hp' : p ∈ (handleFailedPost db post.id errMsg).posts := hp
      rw [hun] at hp'
      exact h p hp'
    | some current =>
      have hmem : current ∈ db.posts := List.mem_of_find?_eq_some hc
      have hlt : current.retry_count < 3 := by
        have := (h current hmem).1
        omega
      rw [publishPost_retry_eq db post adapterOk now errMsg current hs hc hlt]
      intro p hp
      exact h p hp

lemma engineInv_schedule (db : DB) (pid c : String) (sf : Option Int) (now : Int)
    (pl : Platform) (tg : Option (List String)) (h : EngineInv db) :
    EngineInv (applyOp db (EngineOp.schedule pid c sf now pl tg)) := by
  show EngineInv (match schedulePost db pid c sf now pl tg with
    | Except.ok (db', _) => db'
    | Except.error _ => db)
  by_cases hdup : (db.posts.any fun p => decide (p.id = pid)) = true
  · unfold schedulePost
    rw [if_pos hdup]
    exact h
  · unfold schedulePost
    rw [if_neg hdup]
    intro p hp
    rcases List.mem_append.mp hp with hold | hnew
    · exact h p hold
    · rw [List.mem_singleton.mp hnew]
      exact ⟨rfl, by simp, by simp⟩

lemma engineInv_applyOp (db : DB) (op : EngineOp) (h : EngineInv db) :
    EngineInv (applyOp db op) := by
  cases op with
  | schedule pid c sf now pl tg => exact engineInv_schedule db pid c sf now pl tg h
  | publish post adapterOk now errMsg =>
    exact engineInv_publish db post adapterOk now errMsg h
  | delete pid =>
    intro p hp
    have hp' : p ∈ db.posts.filter
        (fun p => ¬(p.id = pid ∧ p.status = Status.pending)) := hp
    exact h p (List.mem_of_mem_filter hp')
  | cleanup now =>
    intro p hp
    have hp' : p ∈ db.posts.filter (fun p =>
        ¬((p.status = Status.posted ∨ p.status = Status.failed) ∧
          p.created_at < now - thirtyDaysMs)) := hp
    exact h p (List.mem_of_mem_filter hp')

lemma reachable_engineInv {db : DB} (h : Reachable db) : EngineInv db := by
  induction h with
  | init => exact engineInv_nil
  | step _ op ih => exact engineInv_applyOp _ op ih

/-- Claim C7 (part of): every successful publish attempt appends exactly one
`published` event and moves the stored row to `posted` with the published
time set; and in every engine-reachable store state a row's published time
is set exactly when its status is `posted`. -/
theorem publish_success_and_published_iff_posted :
    (∀ (db : DB) (post : Post) (adapterOk : Bool) (now : Int) (errMsg : String),
      attemptSucceeds post.platform adapterOk = true →
      (publishPost db post adapterOk now errMsg).1.analytics
          = db.analytics ++ [⟨post.id, EventType.published, none⟩]
      ∧ getPostById (publishPost db post adapterOk now errMsg).1 post.id
          = (getPostById db post.id).map (fun p =>
              { p with
                status := Status.posted
                error_message := none
                published_at := some now }))
    ∧ (∀ db : DB, Reachable db → ∀ p ∈ db.posts,
        (p.published_at ≠ none ↔ p.status = Status.posted)) := by
  constructor
  · intro db post adapterOk now errMsg hs
    rw [publishPost_success_eq db post adapterOk now errMsg hs]
    refine ⟨?_, ?_⟩
    · simp [logAnalytics, updatePostStatus]
    · rw [getPostById_logAnalytics, getPostById_updatePostStatus]
      cases getPostById db post.id with
      | none => rfl
      | some p => simp [applyStatusUpdate_posted]
  · intro db h p hp
    exact ((reachable_engineInv h) p hp).2.1

/-- Claim C9: in every engine-reachable state the adapter-failure branch
observes a stored retry count < 3 and no row is ever in status `failed`;
consequently a failing attempt on any stored item only appends a
`retrying` event with attempt number 1 (leaving the rows untouched) and
arms another 5-minute re-attempt timer — the item stays `pending` forever. -/
theorem retry_bound_never_reached :
    ∀ db : DB, Reachable db →
    (∀ p ∈ db.posts, p.retry_count < 3 ∧ p.status ≠ Status.failed)
    ∧ (∀ p ∈ db.posts, p.platform = Platform.twitter →
        ∀ (now : Int) (errMsg : String),
          publishPost db p false now errMsg
            = ({ db with analytics := db.analytics ++
                  [⟨p.id, EventType.retry, some (EventPayload.attemptNo 1)⟩] },
               RetryAction.retryAfter retryDelayMs)) := by
  intro db h
  have hinv := reachable_engineInv h
  constructor
  · intro p hp
    refine ⟨?_, (hinv p hp).2.2⟩
    have := (hinv p hp).1
    omega
  · intro p hp hplat now errMsg
    have hs : attemptSucceeds p.platform false = false := by rw [hplat]; rfl
    cases hq : getPostById db p.id with
    | none =>
      exfalso
      have hnone : ∀ x ∈ db.posts, ¬((fun x => decide (x.id = p.id)) x = true) :=
        List.find?_eq_none.mp hq
      have := hnone p hp
      simp at this
    | some q =>
      have hqmem : q ∈ db.posts := List.mem_of_find?_eq_some hq
      have hq0 : q.retry_count = 0 := (hinv q hqmem).1
      rw [publishPost_retry_eq db p false now errMsg q hs hq (by omega)]
      rw [hq0]
      rfl

/-! ### Concrete fixtures for witnesses and concrete runs -/

/-- The row that scheduling `content := "bora codar?"` at time 0 for the
`twitter` channel inserts. -/
def postW : Post :=
  { id := "post_1", content := "bora codar?", scheduled_for := 0,
    status := Status.pending, created_at := 0, platform := Platform.twitter,
    tags := none, published_at := none, error_message := none, retry_count := 0 }

/-- A store holding just `postW`. -/
def dbW : DB := ⟨[postW], []⟩

/-- A `linkedin` copy of `postW`. -/
def postL : Post := { postW with id := "post_2", platform := Platform.linkedin }

/-- A store holding just `postL`. -/
def dbL : DB := ⟨[postL], []⟩

/-- The store reached from the empty store by one scheduling request. -/
def dbR : DB :=
  applyOp ⟨[], []⟩ (EngineOp.schedule "post_1" "bora codar?" (some 0) 0
    Platform.twitter none)

theorem adapter_failure_branch_spec_witness :
    (0 : Nat) < 3 ∧
    publishPost dbW postW false 7 "boom"
      = ({ dbW with analytics := dbW.analytics ++
            [⟨postW.id, EventType.retry, some (EventPayload.attemptNo (0 + 1))⟩] },
         RetryAction.retryAfter (5 * 60 * 1000)) :=
  ⟨by decide,
   (adapter_failure_branch_spec dbW postW 7 "boom" postW rfl rfl).1 (by decide)⟩

theorem unimplemented_channel_noop_success_witness :
    (publishPost dbL postL false 4 "e").2 = RetryAction.done
    ∧ (publishPost dbL postL false 4 "e").1.analytics
        = dbL.analytics ++ [⟨postL.id, EventType.published, none⟩]
    ∧ getPostById (publishPost dbL postL false 4 "e").1 postL.id
        = (getPostById dbL postL.id).map (fun p =>
            { p with
              status := Status.posted
              error_message := none
              published_at := some 4 }) :=
  unimplemented_channel_noop_success dbL postL false 4 "e" (Or.inl rfl)

theorem publish_success_and_published_iff_posted_witness :
    ((publishPost dbW postW true 5 "e").1.analytics
        = dbW.analytics ++ [⟨postW.id, EventType.published, none⟩]
     ∧ getPostById (publishPost dbW postW true 5 "e").1 postW.id
        = (getPostById dbW postW.id).map (fun p =>
            { p with
              status := Status.posted
              error_message := none
              published_at := some 5 }))
    ∧ (∀ p ∈ (⟨[], []⟩ : DB).posts,
        (p.published_at ≠ none ↔ p.status = Status.posted)) :=
  ⟨publish_success_and_published_iff_posted.1 dbW postW true 5 "e" rfl,
   publish_success_and_published_iff_posted.2 ⟨[], []⟩ Reachable.init⟩

theorem retry_bound_never_reached_witness :
    (∀ p ∈ dbR.posts, p.retry_count < 3 ∧ p.status ≠ Status.failed)
    ∧ publishPost dbR postW false 9 "boom"
        = ({ dbR with analytics := dbR.analytics ++
              [⟨postW.id, EventType.retry, some (EventPayload.attemptNo 1)⟩] },
           RetryAction.retryAfter retryDelayMs) := by
  have h := retry_bound_never_reached dbR (Reachable.step Reachable.init _)
  exact ⟨h.1, h.2 postW (by decide) rfl 9 "boom"⟩

/-- Claim C3: the per-tick due query returns exactly the `pending` rows with
scheduled time ≤ now and retry count < 3, sorted by scheduled time
ascending; in particular no row with retry count ≥ 3 is ever returned. -/
theorem listDue_spec :
    ∀ (db : DB) (now : Int),
    List.Perm (listDue db now)
      (db.posts.filter (fun p =>
        p.status = Status.pending ∧ p.scheduled_for ≤ now ∧ p.retry_count < 3))
    ∧ List.Pairwise (fun a b : Post => a.scheduled_for ≤ b.scheduled_for)
        (listDue db now)
    ∧ (∀ p ∈ listDue db now,
        p ∈ db.posts ∧ p.status = Status.pending ∧ p.scheduled_for ≤ now
          ∧ p.retry_count < 3)
    ∧ (∀ p ∈ db.posts,
        p.status = Status.pending → p.scheduled_for ≤ now → p.retry_count < 3 →
        p ∈ listDue db now)
    ∧ (∀ p : Post, 3 ≤ p.retry_count → p ∉ listDue db now) := by
  intro db now
  have hperm : List.Perm (listDue db now)
      (db.posts.filter (fun p =>
        p.status = Status.pending ∧ p.scheduled_for ≤ now ∧ p.retry_count < 3)) :=
    List.mergeSort_perm _ _
  have hmem : ∀ p : Post, p ∈ listDue db now ↔
      (p ∈ db.posts ∧ p.status = Status.pending ∧ p.scheduled_for ≤ now
        ∧ p.retry_count < 3) := by
    intro p
    rw [hperm.mem_iff, List.mem_filter]
    simp
  refine ⟨hperm, ?_, ?_, ?_, ?_⟩
  · have hs := @List.sorted_mergeSort Post
      (fun a b : Post => decide (a.scheduled_for ≤ b.scheduled_for))
      (fun a b c hab hbc => by
        simp only [decide_eq_true_eq] at hab hbc ⊢
        omega)
      (fun a b => by
        simp only [Bool.or_eq_true, decide_eq_true_eq]
        omega)
      (db.posts.filter (fun p =>
        p.status = Status.pending ∧ p.scheduled_for ≤ now ∧ p.retry_count < 3))
    exact hs.imp (fun hab => by simpa using hab)
  · intro p hp
    exact (hmem p).mp hp
  · intro p hp h1 h2 h3
    exact (hmem p).mpr ⟨hp, h1, h2, h3⟩
  · intro p h3 hp
    have := ((hmem p).mp hp).2.2.2
    omega

theorem listDue_spec_witness :
    postW ∈ listDue dbW 0
    ∧ List.Pairwise (fun a b : Post => a.scheduled_for ≤ b.scheduled_for)
        (listDue dbW 0) := by
  have h := listDue_spec dbW 0
  exact ⟨h.2.2.2.1 postW (by decide) rfl (by decide) (by decide), h.2.1⟩

/-- Claim C5 (counterexample): scheduling an item with empty content does
not fail with a validation error and does persist — the call returns the
generated id and the store holds one `pending` row with empty content and
retry count 0. -/
theorem schedulePost_empty_content_accepted :
    (schedulePost ⟨[], []⟩ "post_1" "" (some 0) 0 Platform.twitter none).map
        (fun r => (r.2, r.1.posts.map (fun p => (p.content, p.status, p.retry_count))))
      = Except.ok ("post_1", [("", Status.pending, 0)]) := by
  rfl

/-- Claim C5 (amended): the schedule operation performs no content or
channel validation — for every input whose generated identifier is fresh,
including one with empty content, it persists a new `pending` row with
retry count 0, appends a `scheduled` event, and returns the identifier. -/
theorem schedulePost_no_validation :
    ∀ (db : DB) (postId content : String) (sf : Option Int) (now : Int)
      (pl : Platform) (tg : Option (List String)),
    (∀ p ∈ db.posts, p.id ≠ postId) →
    schedulePost db postId content sf now pl tg
      = Except.ok
          ({ posts := db.posts ++
              [{ id := postId
                 content := content
                 scheduled_for := sf.getD now
                 status := Status.pending
                 created_at := now
                 platform := pl
                 tags := tg
                 published_at := none
                 error_message := none
                 retry_count := 0 }]
             analytics := db.analytics ++
              [⟨postId, EventType.scheduled,
                some (EventPayload.schedFor (sf.getD now))⟩] }, postId) := by
  intro db postId content sf now pl tg hfresh
  have hneg : ¬((db.posts.any fun p => decide (p.id = postId)) = true) := by
    rw [List.any_eq_true]
    rintro ⟨p, hp, hid⟩
    exact hfresh p hp (by simpa using hid)
  unfold schedulePost
  rw [if_neg hneg]
  rfl

theorem schedulePost_no_validation_witness :
    schedulePost ⟨[], []⟩ "post_9" "hello" none 42 Platform.instagram (some ["t"])
      = Except.ok
          ({ posts := [{ id := "post_9"
                         content := "hello"
                         scheduled_for := 42
                         status := Status.pending
                         created_at := 42
                         platform := Platform.instagram
                         tags := some ["t"]
                         published_at := none
                         error_message := none
                         retry_count := 0 }]
             analytics := [⟨"post_9", EventType.scheduled,
                some (EventPayload.schedFor 42)⟩] }, "post_9") := by
  have h := schedulePost_no_validation ⟨[], []⟩ "post_9" "hello" none 42
    Platform.instagram (some ["t"]) (by simp)
  simpa using h


/-- Claim C6: `deleteScheduledPost` returns true exactly when a `pending`
row with the given id exists; it removes exactly the `pending` rows with
that id; when every row with that id is `posted` or `failed` (or no row
exists) it returns false and leaves the store identical; analytics rows are
never touched. -/
theorem deleteScheduledPost_spec :
    ∀ (db : DB) (postId : String),
    ((deleteScheduledPost db postId).2 = true ↔
      ∃ p ∈ db.posts, p.id = postId ∧ p.status = Status.pending)
    ∧ (∀ p ∈ (deleteScheduledPost db postId).1.posts,
        p ∈ db.posts ∧ ¬(p.id = postId ∧ p.status = Status.pending))
    ∧ (∀ p ∈ db.posts, ¬(p.id = postId ∧ p.status = Status.pending) →
        p ∈ (deleteScheduledPost db postId).1.posts)
    ∧ ((∀ p ∈ db.posts, p.id = postId → p.status ≠ Status.pending) →
        (deleteScheduledPost db postId).1 = db
        ∧ (deleteScheduledPost db postId).2 = false)
    ∧ (deleteScheduledPost db postId).1.analytics = db.analytics := by
  intro db postId
  have hp1 : (deleteScheduledPost db postId).1.posts
      = db.posts.filter
          (fun p => ¬(p.id = postId ∧ p.status = Status.pending)) := rfl
  have hb : (deleteScheduledPost db postId).2
      = decide ((db.posts.filter
          (fun p => ¬(p.id = postId ∧ p.status = Status.pending))).length
            < db.posts.length) := rfl
  refine ⟨?_, ?_, ?_, ?_, rfl⟩
  · rw [hb]
    simp only [decide_eq_true_eq]
    rw [List.length_filter_lt_length_iff_exists]
    constructor
    · rintro ⟨x, hx, hnx⟩
      refine ⟨x, hx, ?_⟩
      have hxx : ¬¬(x.id = postId ∧ x.status = Status.pending) :=
        fun hn => hnx (decide_eq_true hn)
      exact not_not.mp hxx
    · rintro ⟨p, hp, hid, hst⟩
      refine ⟨p, hp, fun hdec => of_decide_eq_true hdec ⟨hid, hst⟩⟩
  · intro p hp
    rw [hp1] at hp
    have h := List.mem_filter.mp hp
    exact ⟨h.1, of_decide_eq_true h.2⟩
  · intro p hp hnp
    rw [hp1]
    exact List.mem_filter.mpr ⟨hp, decide_eq_true hnp⟩
  · intro hall
    have hfeq : db.posts.filter
        (fun p => ¬(p.id = postId ∧ p.status = Status.pending)) = db.posts := by
      apply List.filter_eq_self.mpr
      intro a ha
      refine decide_eq_true ?_
      rintro ⟨hid, hst⟩
      exact hall a ha hid hst
    constructor
    · show { db with posts := db.posts.filter _ } = db
      rw [hfeq]
    · rw [hb, hfeq]
      simp

/-- A terminal (`posted`) copy of `postW`. -/
def postP : Post :=
  { postW with id := "post_3", status := Status.posted, published_at := some 1 }

/-- A store holding just `postP`. -/
def dbP : DB := ⟨[postP], []⟩

theorem deleteScheduledPost_spec_witness :
    (deleteScheduledPost dbW "post_1").2 = true
    ∧ (deleteScheduledPost dbP "post_3").1 = dbP
    ∧ (deleteScheduledPost dbP "post_3").2 = false := by
  have h1 := (deleteScheduledPost_spec dbW "post_1").1
  have h2 := (deleteScheduledPost_spec dbP "post_3").2.2.2.1 (by decide)
  exact ⟨h1.mpr (by decide), h2.1, h2.2⟩

/-- Claim C8: the daily cleanup deletes exactly the rows with terminal
status (`posted` or `failed`) created more than 30 days ago; every
`pending` row of any age, and every terminal row inside the retention
window, stays; analytics rows are never touched. -/
theorem cleanupOldPosts_spec :
    ∀ (db : DB) (now : Int),
    (∀ p ∈ (cleanupOldPosts db now).posts,
        p ∈ db.posts
        ∧ ¬((p.status = Status.posted ∨ p.status = Status.failed)
             ∧ p.created_at < now - thirtyDaysMs))
    ∧ (∀ p ∈ db.posts,
        ¬((p.status = Status.posted ∨ p.status = Status.failed)
            ∧ p.created_at < now - thirtyDaysMs) →
        p ∈ (cleanupOldPosts db now).posts)
    ∧ (∀ p ∈ db.posts, p.status = Status.pending →
        p ∈ (cleanupOldPosts db now).posts)
    ∧ (∀ p ∈ db.posts, now - thirtyDaysMs ≤ p.created_at →
        p ∈ (cleanupOldPosts db now).posts)
    ∧ (cleanupOldPosts db now).analytics = db.analytics := by
  intro db now
  refine ⟨?_, ?_, ?_, ?_, rfl⟩
  · intro p hp
    have h := List.mem_filter.mp hp
    exact ⟨h.1, of_decide_eq_true h.2⟩
  · intro p hp hnp
    exact List.mem_filter.mpr ⟨hp, decide_eq_true hnp⟩
  · intro p hp hpend
    refine List.mem_filter.mpr ⟨hp, decide_eq_true ?_⟩
    rintro ⟨h1, -⟩
    rcases h1 with h1 | h1 <;> rw [hpend] at h1 <;> exact absurd h1 (by decide)
  · intro p hp hage
    refine List.mem_filter.mpr ⟨hp, decide_eq_true ?_⟩
    rintro ⟨-, hlt⟩
    omega

theorem cleanupOldPosts_spec_witness :
    postW ∈ (cleanupOldPosts dbW 999).posts
    ∧ (cleanupOldPosts dbW 999).analytics = dbW.analytics := by
  have h := cleanupOldPosts_spec dbW 999
  exact ⟨h.2.2.1 postW (by decide) rfl, h.2.2.2.2⟩

/-- Claim C10: the stats block of `getAnalytics` is computed by a query over
the whole `posts` table, so a call filtered by item id returns the same
stats as the unfiltered call; the id argument restricts only the joined
event list, every returned event belonging to that id. -/
theorem getAnalytics_stats_ignore_filter :
    ∀ (db : DB) (pid : String),
    (getAnalytics db (some pid)).1 = (getAnalytics db none).1
    ∧ (getAnalytics db (some pid)).1 = aggregateStats db
    ∧ (getAnalytics db none).1 = aggregateStats db
    ∧ (∀ j ∈ (getAnalytics db (some pid)).2, j.ev.post_id = pid) := by
  intro db pid
  refine ⟨rfl, rfl, rfl, ?_⟩
  intro j hj
  simp only [getAnalytics] at hj
  have hj1 := List.mem_reverse.mp (List.mem_of_mem_take hj)
  have hj2 := (List.mem_filter.mp hj1).2
  exact of_decide_eq_true hj2

theorem getAnalytics_stats_ignore_filter_witness :
    (getAnalytics dbR (some "post_1")).1 = (getAnalytics dbR none).1
    ∧ (getAnalytics dbR (some "post_1")).1 = aggregateStats dbR
    ∧ (⟨⟨"post_1", EventType.scheduled, some (EventPayload.schedFor 0)⟩,
        "bora codar?", Platform.twitter, Status.pending⟩ : JoinedEvent).ev.post_id
        = "post_1" := by
  have h := getAnalytics_stats_ignore_filter dbR "post_1"
  exact ⟨h.1, h.2.1, h.2.2.2 _ (by decide)⟩

/-- The store after the scheduling request followed by `n` consecutive
publish attempts whose adapter call fails every time (the `setTimeout`
re-attempts of the retry branch, in order). -/
def dbAfterFailures : Nat → DB
  | 0 => dbR
  | n + 1 =>
    (publishPost (dbAfterFailures n) postW false (Int.ofNat n + 1)
      "Request failed").1

/-- Claim C1 (run at the failing input): for an item whose publish attempt
fails on every try, three consecutive failing attempts leave the stored row
still `pending` with retry count 0 and a null error message, the appended
event sequence is retry(1), retry(1), retry(1) — not retry(1), retry(2),
failed — and a fourth re-attempt timer is still armed, so the engine never
ends with the item in status `failed` with retry count 3. -/
theorem alwaysFailing_three_attempts_behavior :
    getPostById (dbAfterFailures 3) "post_1" = some postW
    ∧ postW.status = Status.pending
    ∧ postW.retry_count = 0
    ∧ postW.error_message = none
    ∧ (dbAfterFailures 3).analytics.map (fun e => (e.etype, e.payload))
        = [(EventType.scheduled, some (EventPayload.schedFor 0)),
           (EventType.retry, some (EventPayload.attemptNo 1)),
           (EventType.retry, some (EventPayload.attemptNo 1)),
           (EventType.retry, some (EventPayload.attemptNo 1))]
    ∧ (publishPost (dbAfterFailures 3) postW false 99 "Request failed").2
        = RetryAction.retryAfter retryDelayMs := by
  refine ⟨?_, rfl, rfl, rfl, ?_, ?_⟩ <;> decide
